import Mathlib

set_option maxRecDepth 100000

/-!
Verification of the ChapterPal conversational reader.

The development shallowly embeds the logic of `src/app/page.tsx` (sentence
segmentation, reveal cursor, double-tap gesture recognition, document
ingestion) and `src/app/api/ask/route.ts` (question validation, offline
fallback, provider response normalization).  JavaScript strings are modeled
as lists of characters, JSON values as an inductive type, and the React
component state as an explicit record with transition functions.
-/

namespace ChapterPal

/-- JavaScript strings are modeled as lists of characters. -/
abbrev Str := List Char

/-- The character class matched by the whitespace class of the JavaScript
regular expressions in `page.tsx` (the class written backslash-s): ASCII
whitespace plus the Unicode space separators, line separators and BOM. -/
def isWs (c : Char) : Bool :=
  c == ' ' || c == '\t' || c == '\n' || c == '\r' ||
  c == '\x0b' || c == '\x0c' ||
  c.toNat == 0xa0 || c.toNat == 0x1680 ||
  (decide (0x2000 ≤ c.toNat) && decide (c.toNat ≤ 0x200a)) ||
  c.toNat == 0x2028 || c.toNat == 0x2029 || c.toNat == 0x202f ||
  c.toNat == 0x205f || c.toNat == 0x3000 || c.toNat == 0xfeff

/-- The sentence terminator characters of the segmentation regex in
`splitIntoSentences` (`page.tsx` line 60): period, exclamation and question
mark. -/
def isTerm (c : Char) : Bool :=
  c == '.' || c == '!' || c == '?'

/-- Replacement of every maximal whitespace run by a single space, i.e. the
global whitespace replace call of `page.tsx` lines 58 and 180.  The boolean
argument records whether the previously consumed character was part of a
whitespace run already replaced. -/
def collapseAux : Str → Bool → Str
  | [], _ => []
  | c :: rest, prevWs =>
    if isWs c then
      (if prevWs then collapseAux rest true else ' ' :: collapseAux rest true)
    else
      c :: collapseAux rest false

/-- The whitespace replace call starting outside a whitespace run. -/
def collapseWs (s : Str) : Str := collapseAux s false

/-- JavaScript `String.prototype.trim`: drop leading whitespace, then drop
trailing whitespace (implemented by reversing). -/
def trimChars (s : Str) : Str :=
  ((s.dropWhile isWs).reverse.dropWhile isWs).reverse

/-- The normalization pipeline applied before sentence matching and before
ingestion: collapse whitespace runs to single spaces, then trim
(`page.tsx` lines 58-59 and line 180). -/
def normalizeWs (s : Str) : Str := trimChars (collapseWs s)

/-- Global matching of the sentence regex of `page.tsx` line 60 against the
normalized text.  The regex alternation matches, at each position holding a
non-terminator, the maximal run of non-terminator characters together with
the maximal following run of terminator characters (the second alternative
keeps a trailing run that reaches the end of the string without a
terminator); positions holding a terminator that cannot start a match are
skipped.  `acc` is the reversed text of the match in progress and `inTerms`
records whether that match is already inside its terminator run. -/
def scanAux : Str → Str → Bool → List Str
  | [], acc, _ => if acc.isEmpty then [] else [acc.reverse]
  | c :: rest, acc, inTerms =>
    if isTerm c then
      (if acc.isEmpty then scanAux rest [] false else scanAux rest (c :: acc) true)
    else
      (if inTerms then acc.reverse :: scanAux rest [c] false
       else scanAux rest (c :: acc) false)

/-- `splitIntoSentences` of `page.tsx` lines 55-62: normalize whitespace,
match the sentence regex globally (an absent match yields the empty list),
and trim every match. -/
def splitIntoSentences (raw : Str) : List Str :=
  (scanAux (normalizeWs raw) [] false).map trimChars

/-- `MAX_SENTENCES` of `page.tsx` line 41. -/
def MAX_SENTENCES : Nat := 2200

/-- `DOUBLE_TAP_WINDOW` of `page.tsx` line 40, in milliseconds. -/
def DOUBLE_TAP_WINDOW : Int := 320

/-- `DEFAULT_EXCERPT` of `page.tsx` lines 42-46. -/
def DEFAULT_EXCERPT : Str :=
  "Reasoning Language Models: A Blueprint examines how we build agents that think.\n\nProgress in reasoning requires quiet focus. Reading everything at once is overwhelming, so ChapterPal only reveals one sentence at a time. Pause, inspect, question, and only then move forward.\n\nDouble-tap the right edge to reveal new sentences. Double-tap the left edge when you want to rewind and reconsider. Ask Grok 4.1 anything along the way and tap outside the Q&A to fall back into the main text.".data

/-- A side of the reading surface, as passed to `handleTouch`. -/
inductive Side where
  | left
  | right
  deriving DecidableEq

/-- The command a recognized double tap issues: the right side calls
`handleReveal`, the left side calls `handleUnreveal` (`page.tsx` 163-167). -/
inductive Command where
  | reveal
  | unreveal
  deriving DecidableEq

/-- The command associated with each side. -/
def commandFor : Side → Command
  | Side.right => Command.reveal
  | Side.left => Command.unreveal

/-- The `touchTracker` ref of `page.tsx` lines 135-138: the last tap
timestamp recorded for each side (initialized to 0). -/
structure TouchTracker where
  left : Int
  right : Int
  deriving DecidableEq

/-- Reading `touchTracker.current[side]`. -/
def TouchTracker.get (tr : TouchTracker) : Side → Int
  | Side.left => tr.left
  | Side.right => tr.right

/-- Writing `touchTracker.current[side] = now`. -/
def TouchTracker.set (tr : TouchTracker) : Side → Int → TouchTracker
  | Side.left, v => { tr with left := v }
  | Side.right, v => { tr with right := v }

/-- `handleTouch` of `page.tsx` lines 159-170: compare the tap time against
the last recorded tap on the same side; emit the side's command when the
gap is below `DOUBLE_TAP_WINDOW`; in all cases record the tap time for that
side.  The returned pair is the updated tracker and the emitted command. -/
def handleTouch (tr : TouchTracker) (side : Side) (now : Int) :
    TouchTracker × Option Command :=
  let lastTap := tr.get side
  let emitted :=
    if now - lastTap < DOUBLE_TAP_WINDOW then some (commandFor side) else none
  (tr.set side now, emitted)

/-- Running `handleTouch` over a sequence of timestamped taps on one side,
collecting the emitted command of each tap. -/
def runTaps (tr : TouchTracker) (side : Side) : List Int → List (Option Command)
  | [] => []
  | t :: ts =>
    (handleTouch tr side t).2 :: runTaps (handleTouch tr side t).1 side ts

/-- `handleReveal` of `page.tsx` lines 153-154, as a function of the
sentence count and the previous cursor value. -/
def handleReveal (len prev : Nat) : Nat :=
  if prev ≥ len then prev else prev + 1

/-- `handleUnreveal` of `page.tsx` lines 156-157. -/
def handleUnreveal (prev : Nat) : Nat :=
  if prev > 1 then prev - 1 else prev

/-- The `DocumentMeta` record of `page.tsx` lines 28-34.  The optional
fields `filename` and `truncated` are absent in the startup document. -/
structure Meta where
  title : Str
  byline : Str
  sentenceCount : Nat
  filename : Option Str
  truncated : Option Bool
  deriving DecidableEq

/-- The mutable state of the reading view that the claims concern: the
`sentences`, `revealed`, `documentMeta` and `uploadError` state hooks of
`page.tsx` lines 118-129. -/
structure ReaderState where
  sentences : List Str
  revealed : Nat
  meta : Meta
  uploadError : Option Str
  deriving DecidableEq

/-- A value thrown during text extraction, as inspected by the catch block
of `page.tsx` lines 196-201: either an `Error` carrying a message, or any
other thrown value. -/
inductive JsError where
  | err (msg : Str)
  | nonError
  deriving DecidableEq

/-- The message of the upload error thrown when segmentation finds no
sentences (`page.tsx` line 184). -/
def unreadableMessage : Str :=
  "I couldn't find readable sentences in that file.".data

/-- The fallback message of the catch block for a thrown value that is not
an `Error` (`page.tsx` line 200). -/
def unexpectedParseMessage : Str :=
  "Unexpected error while parsing that file.".data

/-- The user-facing message extracted from a thrown value by the catch
block of `page.tsx` lines 197-200. -/
def errMessage : JsError → Str
  | JsError.err m => m
  | JsError.nonError => unexpectedParseMessage

/-- `handleFileChange` of `page.tsx` lines 172-206, as a transition on the
reader state.  `extracted` is the outcome of `extractText` (an external
capability: plain text read or PDF extraction), which may throw.  `title`,
`byline` and `fname` are the presentational strings the component derives
from the uploaded file (name with extension stripped, formatted size and
type); their computation carries no claim-relevant logic, so they are taken
as arguments.  On success the document is replaced, the cursor reset to 1
and `truncated` set from the capped length; the empty-segmentation check
throws into the same catch block that handles extraction failures, which
only sets the upload error. -/
def handleFileChange (st : ReaderState) (title byline fname : Str)
    (extracted : Except JsError Str) : ReaderState :=
  match extracted with
  | Except.error e => { st with uploadError := some (errMessage e) }
  | Except.ok rawText =>
    let clean := normalizeWs rawText
    let next := (splitIntoSentences clean).take MAX_SENTENCES
    if next.isEmpty then
      { st with uploadError := some unreadableMessage }
    else
      { sentences := next
        revealed := 1
        meta :=
          { title := title
            byline := byline
            sentenceCount := next.length
            filename := some fname
            truncated := some (decide (next.length ≥ MAX_SENTENCES)) }
        uploadError := none }

/-- The startup state of the reading view (`page.tsx` lines 118-129): the
hardcoded excerpt is segmented, the cursor starts at 1, and the startup
metadata carries no filename and no truncated flag. -/
def initialState : ReaderState :=
  { sentences := splitIntoSentences DEFAULT_EXCERPT
    revealed := 1
    meta :=
      { title := "Reasoning Language Models: A Blueprint".data
        byline := "Maciej Besta · Julia Barth · Eric Schreiber · Ales Kubicek · more".data
        sentenceCount := (splitIntoSentences DEFAULT_EXCERPT).length
        filename := none
        truncated := none }
    uploadError := none }

/-- The states of the reading view reachable from startup through the
transitions the component exposes: reveal, unreveal, and document
ingestion with an arbitrary extraction outcome. -/
inductive Reachable : ReaderState → Prop where
  | init : Reachable initialState
  | reveal {st : ReaderState} (h : Reachable st) :
      Reachable { st with revealed := handleReveal st.sentences.length st.revealed }
  | unreveal {st : ReaderState} (h : Reachable st) :
      Reachable { st with revealed := handleUnreveal st.revealed }
  | upload {st : ReaderState} (title byline fname : Str)
      (extracted : Except JsError Str) (h : Reachable st) :
      Reachable (handleFileChange st title byline fname extracted)

/-- JSON values, as received by the proxy from the provider
(`route.ts` lines 3-17 declare the expected shapes; the raw value may be
anything). -/
inductive Json where
  | jnull
  | jbool (b : Bool)
  | jnum (n : Int)
  | jstr (s : Str)
  | jarr (xs : List Json)
  | jobj (fields : List (Str × Json))

/-- First-match lookup of an object field (parsed JSON objects carry each
key once). -/
def lookupField : List (Str × Json) → Str → Option Json
  | [], _ => none
  | (k', v) :: rest, k => if k' = k then some v else lookupField rest k

/-- Optional-chaining field access: absent on non-objects and missing
keys. -/
def Json.getField : Json → Str → Option Json
  | Json.jobj fields, k => lookupField fields k
  | _, _ => none

/-- Optional-chaining index access on arrays. -/
def Json.atIdx : Json → Nat → Option Json
  | Json.jarr xs, i => xs.get? i
  | _, _ => none

/-- JavaScript `join` with a newline separator (`route.ts` lines 98, 103
and 108). -/
def joinNL (xs : List Str) : Str := List.intercalate ['\n'] xs

/-- The per-chunk text extraction `chunk?.text ?? ""` of `route.ts` lines
98 and 103: the `text` field when it is a string (the declared chunk type
gives it the string type), the empty string otherwise. -/
def chunkText : Json → Str
  | Json.jobj fields =>
    (match lookupField fields "text".data with
     | some (Json.jstr s) => s
     | _ => [])
  | _ => []

/-- An element of the `output_text` array as joined by `route.ts` line 108
(declared as a string array). -/
def outputTextElem : Json → Str
  | Json.jstr s => s
  | _ => []

/-- The sentinel answer returned when no recognized shape matches
(`route.ts` line 115). -/
def noReadableText : Str :=
  "Grok responded without readable text.".data

/-- `normalizeGrokResponse` of `route.ts` lines 89-116, on the parsed JSON
body: try `choices[0].message.content` as a string, then as an array of
chunks joined by newlines, then `output[0].content` joined by newlines,
then `output_text` as an array joined by newlines, then `output_text` as a
string, and fall back to the sentinel. -/
def normalizeGrokResponse (data : Json) : Str :=
  let primary :=
    (((data.getField "choices".data).bind (fun j => j.atIdx 0)).bind
        (fun j => j.getField "message".data)).bind
      (fun j => j.getField "content".data)
  match primary with
  | some (Json.jstr s) => s
  | some (Json.jarr chunks) => joinNL (chunks.map chunkText)
  | _ =>
    match ((data.getField "output".data).bind (fun j => j.atIdx 0)).bind
        (fun j => j.getField "content".data) with
    | some (Json.jarr blocks) => joinNL (blocks.map chunkText)
    | _ =>
      match data.getField "output_text".data with
      | some (Json.jarr xs) => joinNL (xs.map outputTextElem)
      | some (Json.jstr s) => s
      | _ => noReadableText

/-- `FALLBACK_MESSAGE` of `route.ts` lines 19-20. -/
def fallbackMessage : Str :=
  "Set the GROK_API_KEY environment variable to proxy questions to Grok 4.1. You're seeing a local demo response instead.".data

/-- The validation error message of `route.ts` line 27. -/
def missingQuestionMessage : Str :=
  "Please include a question in your request.".data

/-- The request body of `POST /api/ask` (`route.ts` line 23); either field
may be absent. -/
structure AskRequest where
  question : Option Str
  context : Option Str

/-- The observable outcome of the proxy handler up to the outbound call:
either an immediate JSON response (with its HTTP status, optional `answer`
and `error` fields and `offline` flag), or the issuing of the upstream
request to the provider (`route.ts` lines 42-64), carrying the question
and context it would embed. -/
inductive AskOutcome where
  | response (status : Nat) (answer : Option Str) (error : Option Str) (offline : Bool)
  | upstream (question : Str) (context : Option Str)
  deriving DecidableEq

/-- The `POST` handler of `route.ts` lines 22-39, up to the decision to
call the provider: reject an absent or blank question with a 400 error;
with no credential configured, answer 200 with the fixed fallback message
and the offline flag; otherwise issue the upstream request. -/
def POST (apiKey : Option Str) (req : AskRequest) : AskOutcome :=
  match req.question with
  | none => AskOutcome.response 400 none (some missingQuestionMessage) false
  | some q =>
    if (trimChars q).isEmpty then
      AskOutcome.response 400 none (some missingQuestionMessage) false
    else
      match apiKey with
      | none => AskOutcome.response 200 (some fallbackMessage) none true
      | some _ => AskOutcome.upstream q req.context

/-- A character surviving at the head of a `dropWhile` fails the predicate. -/
theorem dropWhile_head?_false (p : Char → Bool) :
    ∀ (l : Str) (x : Char), (l.dropWhile p).head? = some x → p x = false := by
  intro l
  induction l with
  | nil => intro x h; simp [List.dropWhile] at h
  | cons c t ih =>
    intro x h
    by_cases hc : p c = true
    · rw [List.dropWhile_cons, if_pos hc] at h
      exact ih x h
    · rw [List.dropWhile_cons, if_neg hc] at h
      have hcx : c = x := by simpa using h
      subst hcx
      simpa using hc

/-- A member failing the predicate survives `dropWhile`. -/
theorem mem_dropWhile_of_neg (p : Char → Bool) :
    ∀ (l : Str) (x : Char), x ∈ l → p x = false → x ∈ l.dropWhile p := by
  intro l
  induction l with
  | nil => intro x hx _; simp at hx
  | cons c t ih =>
    intro x hx hw
    by_cases hc : p c = true
    · rw [List.dropWhile_cons, if_pos hc]
      rcases List.mem_cons.mp hx with rfl | hxt
      · simp [hw] at hc
      · exact ih x hxt hw
    · rw [List.dropWhile_cons, if_neg hc]
      exact hx

/-- The head of an append is the head of a non-empty first part. -/
theorem head?_append_left (l1 l2 : Str) (x : Char) (h : l1.head? = some x) :
    (l1 ++ l2).head? = some x := by
  cases l1 with
  | nil => simp at h
  | cons a t => simpa using h

/-- A trimmed string never ends in whitespace. -/
theorem trimChars_trail (s : Str) :
    ∀ c, (trimChars s).reverse.head? = some c → isWs c = false := by
  intro c h
  unfold trimChars at h
  rw [List.reverse_reverse] at h
  exact dropWhile_head?_false isWs _ c h

/-- A trimmed string never starts with whitespace. -/
theorem trimChars_head (s : Str) :
    ∀ c, (trimChars s).head? = some c → isWs c = false := by
  intro c h
  unfold trimChars at h
  have h2 : ((s.dropWhile isWs).reverse.dropWhile isWs).reverse ++
      ((s.dropWhile isWs).reverse.takeWhile isWs).reverse = s.dropWhile isWs := by
    rw [← List.reverse_append, List.takeWhile_append_dropWhile, List.reverse_reverse]
  have key : (s.dropWhile isWs).head? = some c := by
    rw [← h2]
    exact head?_append_left _ _ c h
  exact dropWhile_head?_false isWs s c key

/-- A non-whitespace member of a string survives trimming. -/
theorem mem_trimChars (s : Str) (x : Char) (hx : x ∈ s) (hw : isWs x = false) :
    x ∈ trimChars s := by
  unfold trimChars
  rw [List.mem_reverse]
  exact mem_dropWhile_of_neg isWs _ x
    (List.mem_reverse.mpr (mem_dropWhile_of_neg isWs s x hx hw)) hw

/-- Sentence terminator characters are not whitespace. -/
theorem isTerm_not_isWs (c : Char) (h : isTerm c = true) : isWs c = false := by
  unfold isTerm at h
  simp only [Bool.or_eq_true, beq_iff_eq] at h
  rcases h with (h | h) | h <;> subst h <;> decide

/-- Every match produced by the sentence scan contains a non-whitespace
character, provided the pending match contains a terminator whenever the
scan is inside a terminator run, the pending match contains a
non-whitespace character whenever the remaining text is exhausted, and the
remaining text does not end in whitespace. -/
theorem scanAux_mem_nonws :
    ∀ (s acc : Str) (b : Bool),
      (b = true → ∃ t ∈ acc, isTerm t = true) →
      (s = [] → acc = [] ∨ ∃ x ∈ acc, isWs x = false) →
      (∀ x, s.reverse.head? = some x → isWs x = false) →
      ∀ m ∈ scanAux s acc b, ∃ x ∈ m, isWs x = false := by
  intro s
  induction s with
  | nil =>
    intro acc b _ h2 _ m hm
    simp only [scanAux] at hm
    cases acc with
    | nil => simp at hm
    | cons a as =>
      rw [if_neg (by simp)] at hm
      rw [List.mem_singleton] at hm
      subst hm
      rcases h2 rfl with hemp | ⟨x, hx, hxw⟩
      · simp at hemp
      · exact ⟨x, List.mem_reverse.mpr hx, hxw⟩
  | cons c rest ih =>
    intro acc b h1 h2 h3 m hm
    have hlast : rest = [] → isWs c = false := by
      intro hr
      apply h3 c
      subst hr
      simp
    have h3' : ∀ x, rest.reverse.head? = some x → isWs x = false := by
      intro x hx
      apply h3 x
      rw [List.reverse_cons]
      exact head?_append_left _ _ x hx
    simp only [scanAux] at hm
    by_cases hterm : isTerm c = true
    · rw [if_pos hterm] at hm
      cases acc with
      | nil =>
        rw [if_pos List.isEmpty_nil] at hm
        exact ih [] false (by simp) (fun _ => Or.inl rfl) h3' m hm
      | cons a as =>
        rw [if_neg (by simp)] at hm
        refine ih (c :: a :: as) true ?_ ?_ h3' m hm
        · intro _
          exact ⟨c, List.mem_cons_self c _, hterm⟩
        · intro _
          exact Or.inr ⟨c, List.mem_cons_self c _, isTerm_not_isWs c hterm⟩
    · rw [if_neg hterm] at hm
      cases b with
      | false =>
        rw [if_neg (by simp)] at hm
        exact ih (c :: acc) false (by simp)
          (fun hr => Or.inr ⟨c, List.mem_cons_self c _, hlast hr⟩) h3' m hm
      | true =>
        rw [if_pos rfl] at hm
        rcases List.mem_cons.mp hm with rfl | hm2
        · obtain ⟨t, ht, htt⟩ := h1 rfl
          exact ⟨t, List.mem_reverse.mpr ht, isTerm_not_isWs t htt⟩
        · exact ih [c] false (by simp)
            (fun hr => Or.inr ⟨c, List.mem_cons_self c _, hlast hr⟩) h3' m hm2

/-- Case analysis of `handleFileChange` on a successful extraction: either
segmentation is empty and only the upload error changes, or the state is
replaced by the freshly ingested document. -/
theorem handleFileChange_ok (st : ReaderState) (title byline fname : Str) (raw : Str) :
    ((splitIntoSentences (normalizeWs raw)).take MAX_SENTENCES = [] ∧
       handleFileChange st title byline fname (Except.ok raw) =
         { st with uploadError := some unreadableMessage })
    ∨ ((splitIntoSentences (normalizeWs raw)).take MAX_SENTENCES ≠ [] ∧
       handleFileChange st title byline fname (Except.ok raw) =
         { sentences := (splitIntoSentences (normalizeWs raw)).take MAX_SENTENCES
           revealed := 1
           meta :=
             { title := title
               byline := byline
               sentenceCount := ((splitIntoSentences (normalizeWs raw)).take MAX_SENTENCES).length
               filename := some fname
               truncated := some (decide (((splitIntoSentences (normalizeWs raw)).take MAX_SENTENCES).length ≥ MAX_SENTENCES)) }
           uploadError := none }) := by
  by_cases hE : (splitIntoSentences (normalizeWs raw)).take MAX_SENTENCES = []
  · left
    refine ⟨hE, ?_⟩
    simp only [handleFileChange, List.isEmpty_iff]
    rw [if_pos hE]
  · right
    refine ⟨hE, ?_⟩
    simp only [handleFileChange, List.isEmpty_iff]
    rw [if_neg hE]

/-- Invariant of all reachable reader states: the sentence sequence is
non-empty and the cursor stays within `[1, length]`. -/
theorem reachable_inv :
    ∀ st, Reachable st →
      st.sentences ≠ [] ∧ 1 ≤ st.revealed ∧ st.revealed ≤ st.sentences.length := by
  intro st h
  induction h with
  | init => exact ⟨by decide, by decide, by decide⟩
  | @reveal st h ih =>
    obtain ⟨hne, h1, h2⟩ := ih
    refine ⟨hne, ?_, ?_⟩
    · show 1 ≤ handleReveal st.sentences.length st.revealed
      unfold handleReveal
      split <;> omega
    · show handleReveal st.sentences.length st.revealed ≤ st.sentences.length
      unfold handleReveal
      split <;> omega
  | @unreveal st h ih =>
    obtain ⟨hne, h1, h2⟩ := ih
    refine ⟨hne, ?_, ?_⟩
    · show 1 ≤ handleUnreveal st.revealed
      unfold handleUnreveal
      split <;> omega
    · show handleUnreveal st.revealed ≤ st.sentences.length
      unfold handleUnreveal
      split <;> omega
  | @upload st title byline fname ex h ih =>
    obtain ⟨hne, h1, h2⟩ := ih
    cases ex with
    | error e => exact ⟨hne, h1, h2⟩
    | ok raw =>
      rcases handleFileChange_ok st title byline fname raw with ⟨_, heq⟩ | ⟨hnx, heq⟩
      · rw [heq]
        exact ⟨hne, h1, h2⟩
      · rw [heq]
        exact ⟨hnx, le_refl 1, List.length_pos.mpr hnx⟩

/-- C1: for a document with `N ≥ 1` sentences, `reveal` then `unreveal`
(and `unreveal` then `reveal`) from any interior cursor `1 < c < N`
returns the cursor to `c`; for every such document, `reveal` at cursor `N`
stays at `N` and `unreveal` at cursor `1` stays at `1`. -/
theorem reveal_unreveal_roundtrip (N c : Nat) (_hN : 1 ≤ N) :
    (1 < c → c < N →
      handleUnreveal (handleReveal N c) = c ∧ handleReveal N (handleUnreveal c) = c)
    ∧ handleReveal N N = N
    ∧ handleUnreveal 1 = 1 := by
  unfold handleReveal handleUnreveal
  refine ⟨fun hc1 hcN => ⟨?_, ?_⟩, ?_, ?_⟩ <;> split_ifs <;> omega

/-- Witness for C1 at `N = 3`, `c = 2` and at the one-sentence document
`N = 1`. -/
theorem reveal_unreveal_roundtrip_witness :
    (handleUnreveal (handleReveal 3 2) = 2
      ∧ handleReveal 3 (handleUnreveal 2) = 2
      ∧ handleReveal 3 3 = 3
      ∧ handleUnreveal 1 = 1)
    ∧ (handleReveal 1 1 = 1 ∧ handleUnreveal 1 = 1) := by
  have h3 := reveal_unreveal_roundtrip 3 2 (by decide)
  have h1 := reveal_unreveal_roundtrip 1 1 (by decide)
  exact ⟨⟨(h3.1 (by decide) (by decide)).1, (h3.1 (by decide) (by decide)).2, h3.2.1, h3.2.2⟩,
    h1.2.1, h1.2.2⟩

/-- C2: every reachable reader state satisfies `1 ≤ revealed ≤ length` of
the sentence sequence; the reveal and unreveal transitions preserve these
bounds; and every successful ingestion resets the cursor to 1 regardless of
its prior value. -/
theorem reveal_cursor_bounds_invariant :
    (∀ st, Reachable st → 1 ≤ st.revealed ∧ st.revealed ≤ st.sentences.length)
    ∧ (∀ (len r : Nat), 1 ≤ r → r ≤ len →
        1 ≤ handleReveal len r ∧ handleReveal len r ≤ len
          ∧ 1 ≤ handleUnreveal r ∧ handleUnreveal r ≤ len)
    ∧ (∀ (st : ReaderState) (title byline fname raw : Str),
        (splitIntoSentences (normalizeWs raw)).take MAX_SENTENCES ≠ [] →
        (handleFileChange st title byline fname (Except.ok raw)).revealed = 1) := by
  refine ⟨fun st h => ⟨(reachable_inv st h).2.1, (reachable_inv st h).2.2⟩, ?_, ?_⟩
  · intro len r h1 h2
    unfold handleReveal handleUnreveal
    refine ⟨?_, ?_, ?_, ?_⟩ <;> split_ifs <;> omega
  · intro st title byline fname raw hne
    rcases handleFileChange_ok st title byline fname raw with ⟨hE, _⟩ | ⟨_, heq⟩
    · exact absurd hE hne
    · rw [heq]

/-- Witness for C2 at the startup state. -/
theorem reveal_cursor_bounds_invariant_witness :
    1 ≤ initialState.revealed ∧ initialState.revealed ≤ initialState.sentences.length :=
  reveal_cursor_bounds_invariant.1 initialState Reachable.init

/-- C3: every element of the segmenter's output is non-empty and carries
neither leading nor trailing whitespace, and inputs with no sentence-like
substring produce the empty sequence. -/
theorem segmenter_sentences_trimmed_nonempty :
    (∀ (raw m : Str), m ∈ splitIntoSentences raw →
        m ≠ []
          ∧ (∀ c, m.head? = some c → isWs c = false)
          ∧ (∀ c, m.reverse.head? = some c → isWs c = false))
    ∧ splitIntoSentences [] = []
    ∧ splitIntoSentences "   ".data = []
    ∧ splitIntoSentences ".!?".data = [] := by
  refine ⟨?_, by decide, by decide, by decide⟩
  intro raw m hm
  unfold splitIntoSentences at hm
  rcases List.mem_map.mp hm with ⟨m0, hm0, rfl⟩
  refine ⟨?_, fun c h => trimChars_head m0 c h, fun c h => trimChars_trail m0 c h⟩
  obtain ⟨x, hx, hxw⟩ :=
    scanAux_mem_nonws (normalizeWs raw) [] false (by simp)
      (fun _ => Or.inl rfl) (trimChars_trail (collapseWs raw)) m0 hm0
  exact List.ne_nil_of_mem (mem_trimChars m0 x hx hxw)

/-- Witness for C3 on a concrete document and sentence. -/
theorem segmenter_sentences_trimmed_nonempty_witness :
    ("Hi there.".data : Str) ≠ [] :=
  (segmenter_sentences_trimmed_nonempty.1 "Hi there. Ok".data "Hi there.".data (by decide)).1

/-- C4: the proxy's normalization tries the provider shapes in a fixed
priority order and returns the first match, joining chunk arrays with
newlines, and falls back to the fixed sentinel when nothing matches; in
particular the concrete shapes of the specification normalize as stated,
and a string `choices` content takes priority over `output_text`. -/
theorem normalize_grok_response_shapes :
    normalizeGrokResponse (Json.jobj [("choices".data,
        Json.jarr [Json.jobj [("message".data,
          Json.jobj [("content".data, Json.jstr "X".data)])]])]) = "X".data
    ∧ normalizeGrokResponse (Json.jobj [("choices".data,
        Json.jarr [Json.jobj [("message".data,
          Json.jobj [("content".data, Json.jarr
            [Json.jobj [("text".data, Json.jstr "A".data)],
             Json.jobj [("text".data, Json.jstr "B".data)]])])]])]) = "A\nB".data
    ∧ normalizeGrokResponse (Json.jobj [("output".data,
        Json.jarr [Json.jobj [("content".data, Json.jarr
          [Json.jobj [("text".data, Json.jstr "A".data)],
           Json.jobj [("text".data, Json.jstr "B".data)]])]])]) = "A\nB".data
    ∧ normalizeGrokResponse (Json.jobj [("output_text".data,
        Json.jarr [Json.jstr "A".data, Json.jstr "B".data])]) = "A\nB".data
    ∧ normalizeGrokResponse (Json.jobj [("output_text".data, Json.jstr "Z".data)]) = "Z".data
    ∧ normalizeGrokResponse (Json.jobj []) = "Grok responded without readable text.".data
    ∧ normalizeGrokResponse (Json.jobj [("choices".data,
        Json.jarr [Json.jobj [("message".data,
          Json.jobj [("content".data, Json.jstr "X".data)])]]),
        ("output_text".data, Json.jstr "Y".data)]) = "X".data := by
  refine ⟨?_, ?_, ?_, ?_, ?_, ?_, ?_⟩ <;> decide

/-- C5: a tap emits the side's command exactly when the previously
recorded tap on the same side lies within the 320 ms window (the right
side emitting reveal and the left side emitting unreveal through
`commandFor`); the tap time is always recorded for its side; and a tap on
the opposite side never influences whether a tap emits. -/
theorem gesture_same_side_double_tap (tr : TouchTracker) (s s1 s2 : Side) (t t1 t2 : Int)
    (hne : s1 ≠ s2) :
    ((handleTouch tr s t).2 = some (commandFor s) ↔ t - tr.get s < DOUBLE_TAP_WINDOW)
    ∧ ((handleTouch tr s t).2 = none ↔ ¬ t - tr.get s < DOUBLE_TAP_WINDOW)
    ∧ (handleTouch tr s t).1.get s = t
    ∧ (handleTouch (handleTouch tr s1 t1).1 s2 t2).2 = (handleTouch tr s2 t2).2 := by
  refine ⟨?_, ?_, ?_, ?_⟩
  · simp only [handleTouch]
    split <;> rename_i hc <;> simp [hc]
  · simp only [handleTouch]
    split <;> rename_i hc <;> simp [hc]
  · cases s <;> rfl
  · cases s1 <;> cases s2 <;> first | rfl | exact absurd rfl hne

/-- Witness for C5: recording and cross-side independence at concrete
taps. -/
theorem gesture_same_side_double_tap_witness :
    (handleTouch ⟨0, 0⟩ Side.right 400).1.get Side.right = 400
    ∧ (handleTouch (handleTouch ⟨0, 0⟩ Side.left 1000).1 Side.right 1001).2 =
        (handleTouch ⟨0, 0⟩ Side.right 1001).2 := by
  have h := gesture_same_side_double_tap ⟨0, 0⟩ Side.right Side.left Side.right 400 1000 1001 (by decide)
  exact ⟨h.2.2.1, h.2.2.2⟩

/-- Taps whose chain of consecutive gaps stays below the window all emit
the side's command, once the tracker already records a tap within the
window of the first. -/
theorem runTaps_chain_all_fire :
    ∀ (ts : List Int) (tr : TouchTracker) (side : Side),
      List.Chain' (fun a b => b - a < DOUBLE_TAP_WINDOW) (tr.get side :: ts) →
      runTaps tr side ts = ts.map (fun _ => some (commandFor side)) := by
  intro ts
  induction ts with
  | nil => intro tr side _; rfl
  | cons t ts ih =>
    intro tr side hch
    rw [List.chain'_cons] at hch
    obtain ⟨hR, hch'⟩ := hch
    have hset : ((handleTouch tr side t).1).get side = t := by
      cases side <;> rfl
    have hemit : (handleTouch tr side t).2 = some (commandFor side) := by
      simp only [handleTouch]
      rw [if_pos hR]
    show (handleTouch tr side t).2 :: runTaps (handleTouch tr side t).1 side ts = _
    rw [List.map_cons, hemit, ih _ side (by rw [hset]; exact hch')]

/-- C6 counterexample: on three same-side taps with gaps below the window,
the code fires on the second AND the third tap (the window resets on every
tap without being cleared), so a command does not fire on alternating taps
only: the output is not `[none, some reveal, none]`. -/
theorem gesture_every_other_tap_counterexample :
    runTaps ⟨0, 0⟩ Side.right [1000, 1100, 1200] =
      [none, some Command.reveal, some Command.reveal]
    ∧ runTaps ⟨0, 0⟩ Side.right [1000, 1100, 1200] ≠
      [none, some Command.reveal, none] := by
  exact ⟨by decide, by decide⟩

/-- C6 amended: for a same-side tap sequence whose consecutive gaps are
all below the 320 ms window, every tap after the first emits the side's
command. -/
theorem gesture_taps_after_first_fire (tr : TouchTracker) (side : Side)
    (t0 : Int) (rest : List Int)
    (hch : List.Chain' (fun a b => b - a < DOUBLE_TAP_WINDOW) (t0 :: rest)) :
    (runTaps tr side (t0 :: rest)).tail = rest.map (fun _ => some (commandFor side)) := by
  show ((handleTouch tr side t0).2 :: runTaps (handleTouch tr side t0).1 side rest).tail = _
  rw [List.tail_cons]
  apply runTaps_chain_all_fire
  have hset : ((handleTouch tr side t0).1).get side = t0 := by
    cases side <;> rfl
  rw [hset]
  exact hch

/-- Witness for the amended C6 at three concrete taps. -/
theorem gesture_taps_after_first_fire_witness :
    (runTaps ⟨0, 0⟩ Side.right [1000, 1100, 1200]).tail =
      List.map (fun _ => some (commandFor Side.right)) [1100, 1200] :=
  gesture_taps_after_first_fire ⟨0, 0⟩ Side.right 1000 [1100, 1200]
    (List.chain'_cons.mpr ⟨by decide, List.chain'_cons.mpr ⟨by decide, List.chain'_singleton _⟩⟩)

/-- C7: after a successful ingestion the stored sentence sequence has at
most `MAX_SENTENCES` elements, the truncated flag is set exactly when the
pre-truncation count reached the maximum, and a document segmenting to
exactly the maximum is marked truncated although nothing is dropped. -/
theorem ingest_truncation_flag (st : ReaderState) (title byline fname : Str) (raw : Str)
    (h : splitIntoSentences (normalizeWs raw) ≠ []) :
    (handleFileChange st title byline fname (Except.ok raw)).sentences.length ≤ MAX_SENTENCES
    ∧ ((handleFileChange st title byline fname (Except.ok raw)).meta.truncated = some true
        ↔ MAX_SENTENCES ≤ (splitIntoSentences (normalizeWs raw)).length)
    ∧ ((splitIntoSentences (normalizeWs raw)).length = MAX_SENTENCES →
        (handleFileChange st title byline fname (Except.ok raw)).sentences =
          splitIntoSentences (normalizeWs raw)
        ∧ (handleFileChange st title byline fname (Except.ok raw)).meta.truncated = some true) := by
  have hnext : (splitIntoSentences (normalizeWs raw)).take MAX_SENTENCES ≠ [] := by
    rw [Ne, List.take_eq_nil_iff]
    intro hcon
    rcases hcon with h0 | h0
    · exact absurd h0 (by decide)
    · exact h h0
  rcases handleFileChange_ok st title byline fname raw with ⟨hE, _⟩ | ⟨_, heq⟩
  · exact absurd hE hnext
  · rw [heq]
    refine ⟨?_, ?_, ?_⟩
    · show ((splitIntoSentences (normalizeWs raw)).take MAX_SENTENCES).length ≤ MAX_SENTENCES
      rw [List.length_take]
      exact min_le_left _ _
    · show some (decide _) = some true ↔ _
      rw [List.length_take]
      simp only [Option.some.injEq, decide_eq_true_eq, ge_iff_le]
      omega
    · intro hlen
      constructor
      · show (splitIntoSentences (normalizeWs raw)).take MAX_SENTENCES = _
        exact List.take_of_length_le (le_of_eq hlen)
      · show some (decide _) = some true
        rw [List.take_of_length_le (le_of_eq hlen)]
        simp only [Option.some.injEq, decide_eq_true_eq, ge_iff_le]
        omega

/-- Witness for C7 on a concrete two-sentence upload. -/
theorem ingest_truncation_flag_witness :
    (handleFileChange initialState [] [] [] (Except.ok "One. Two.".data)).sentences.length ≤ MAX_SENTENCES
    ∧ ((handleFileChange initialState [] [] [] (Except.ok "One. Two.".data)).meta.truncated = some true
        ↔ MAX_SENTENCES ≤ (splitIntoSentences (normalizeWs "One. Two.".data)).length) := by
  have h := ingest_truncation_flag initialState [] [] [] "One. Two.".data (by decide)
  exact ⟨h.1, h.2.1⟩

/-- C8: when ingestion fails (extraction throws, or segmentation of the
extracted text is empty), the previous document, metadata and reveal
cursor are left unchanged and a single human-readable error message is
recorded. -/
theorem ingest_failure_preserves_state (st : ReaderState) (title byline fname : Str)
    (ex : Except JsError Str)
    (hfail : ∀ raw, ex = Except.ok raw →
        (splitIntoSentences (normalizeWs raw)).take MAX_SENTENCES = []) :
    (handleFileChange st title byline fname ex).sentences = st.sentences
    ∧ (handleFileChange st title byline fname ex).revealed = st.revealed
    ∧ (handleFileChange st title byline fname ex).meta = st.meta
    ∧ (handleFileChange st title byline fname ex).uploadError =
        some (match ex with
              | Except.error e => errMessage e
              | Except.ok _ => unreadableMessage) := by
  cases ex with
  | error e => exact ⟨rfl, rfl, rfl, rfl⟩
  | ok raw =>
    rcases handleFileChange_ok st title byline fname raw with ⟨_, heq⟩ | ⟨hne, _⟩
    · rw [heq]
      exact ⟨rfl, rfl, rfl, rfl⟩
    · exact absurd (hfail raw rfl) hne

/-- Witness for C8 on an upload whose text segments to nothing. -/
theorem ingest_failure_preserves_state_witness :
    (handleFileChange initialState [] [] [] (Except.ok ".!?".data)).sentences = initialState.sentences
    ∧ (handleFileChange initialState [] [] [] (Except.ok ".!?".data)).revealed = initialState.revealed
    ∧ (handleFileChange initialState [] [] [] (Except.ok ".!?".data)).uploadError = some unreadableMessage := by
  have h := ingest_failure_preserves_state initialState [] [] [] (Except.ok ".!?".data)
    (fun raw hx => by cases hx; decide)
  exact ⟨h.1, h.2.1, h.2.2.2⟩

/-- C9: with no provider credential configured and a non-blank question,
the proxy answers 200 with the fixed offline placeholder and the offline
flag, issuing no upstream request (the outcome is a `response`, not an
`upstream` call). -/
theorem ask_offline_fallback (q : Str) (ctx : Option Str) (h : trimChars q ≠ []) :
    POST none { question := some q, context := ctx } =
      AskOutcome.response 200 (some fallbackMessage) none true := by
  simp [POST, List.isEmpty_iff, h]

/-- Witness for C9 at the question `test`. -/
theorem ask_offline_fallback_witness :
    POST none { question := some "test".data, context := none } =
      AskOutcome.response 200 (some fallbackMessage) none true :=
  ask_offline_fallback "test".data none (by decide)

/-- C10: every reachable reader state has a non-empty sentence sequence:
the hardcoded startup excerpt segments to at least one sentence and
ingestion rejects any upload whose segmentation is empty. -/
theorem reachable_sentences_nonempty (st : ReaderState) (h : Reachable st) :
    st.sentences ≠ [] :=
  (reachable_inv st h).1

/-- Witness for C10 at the startup state. -/
theorem reachable_sentences_nonempty_witness :
    initialState.sentences ≠ [] :=
  reachable_sentences_nonempty initialState Reachable.init

end ChapterPal
